import Mathlib

/-!
Verification development for the Float-Chat-AI query pipeline.

The repository ships the React frontend (`apiService.js`,
`DataVisualization.js`, `LoginScreen.js`, `App.js`) together with
documentation describing the backend query pipeline (intent extractor,
aggregator, response composer, optional LLM augmenter).  The backend
source itself is not part of the snapshot, so the pipeline components are
modelled here from the specification's §3–§4 descriptions, while the
frontend helpers (`sendQuery` error mapping, `formatErrorMessage`,
`retryRequest`, `DataVisualization`) are embedded directly from the
JavaScript source.
-/

namespace FloatChat

/-- Prefix test: does `pat` occur as a prefix of `s`? -/
def matchesAt : List Char → List Char → Bool
  | [], _ => true
  | _ :: _, [] => false
  | p :: ps, c :: cs => p == c && matchesAt ps cs

/-- First index at which `pat` occurs as a contiguous substring of the text. -/
def findSub (pat : List Char) : List Char → Option Nat
  | [] => if matchesAt pat [] then some 0 else none
  | c :: cs => if matchesAt pat (c :: cs) then some 0 else (findSub pat cs).map (fun n => n + 1)

/-- Modelled from the spec: the `Intent.variable` enumeration (§3); the
backend service that declares it is not in the snapshot. -/
inductive Variable
  | TEMPERATURE
  | SALINITY
  | PRESSURE
  | OXYGEN
  | UNKNOWN
deriving DecidableEq, Repr

/-- Modelled from the spec: the `Intent.operation` enumeration (§3). -/
inductive Operation
  | AVERAGE
  | MAX
  | MIN
  | PROFILE
  | COMPARE
  | EXPLAIN
deriving DecidableEq, Repr

/-- Modelled from the spec: the structured `Intent` record (§3). -/
structure Intent where
  var : Variable
  operation : Operation
  depth_target : Option Int
  depth_tolerance : Int
  raw_text : String
deriving DecidableEq, Repr

/-- Modelled from the spec: normalisation of query text — lower-cased with
punctuation stripped (§4.1); letters, digits and spaces are kept. -/
def normalize (s : String) : List Char :=
  (s.toList.map Char.toLower).filter (fun c => c.isAlphanum || c == ' ')

/-- Modelled from the spec: the variable keyword sets of §4.1. -/
def varKeywords : List (List Char × Variable) :=
  [("temp".toList, Variable.TEMPERATURE), ("temperature".toList, Variable.TEMPERATURE),
   ("sal".toList, Variable.SALINITY), ("salinity".toList, Variable.SALINITY),
   ("pres".toList, Variable.PRESSURE), ("pressure".toList, Variable.PRESSURE),
   ("oxygen".toList, Variable.OXYGEN), ("o2".toList, Variable.OXYGEN)]

/-- Modelled from the spec: the operation keyword sets of §4.1, listed in
rule priority order. -/
def opKeywords : List (List Char × Operation) :=
  [("average".toList, Operation.AVERAGE), ("mean".toList, Operation.AVERAGE),
   ("max".toList, Operation.MAX), ("maximum".toList, Operation.MAX),
   ("highest".toList, Operation.MAX),
   ("min".toList, Operation.MIN), ("minimum".toList, Operation.MIN),
   ("lowest".toList, Operation.MIN),
   ("profile".toList, Operation.PROFILE), ("depth profile".toList, Operation.PROFILE),
   ("show me".toList, Operation.PROFILE),
   ("compare".toList, Operation.COMPARE), ("versus".toList, Operation.COMPARE),
   ("vs".toList, Operation.COMPARE)]

/-- Does the normalised text contain any recognised variable keyword? -/
def hasVarKeyword (t : List Char) : Bool :=
  varKeywords.any (fun kv => (findSub kv.1 t).isSome)

/-- Does the normalised text contain any recognised operation keyword? -/
def hasOpKeyword (t : List Char) : Bool :=
  opKeywords.any (fun kv => (findSub kv.1 t).isSome)

/-- Every variable keyword occurrence paired with its position in the text. -/
def varCandidates (t : List Char) : List (Nat × Variable) :=
  varKeywords.filterMap (fun kv => (findSub kv.1 t).map (fun i => (i, kv.2)))

/-- Modelled from the spec: the earliest-occurring variable keyword wins the
variable slot (tie-break = position in string, §4.1). -/
def bestVar (t : List Char) : Option Variable :=
  match varCandidates t with
  | [] => none
  | c :: cs => some ((cs.foldl (fun b x => if x.1 < b.1 then x else b) c).2)

/-- Modelled from the spec: the operation slot is resolved by its own
keyword pass, rules checked in priority order (§4.1). -/
def bestOp (t : List Char) : Option Operation :=
  opKeywords.findSome? (fun kv => if (findSub kv.1 t).isSome then some kv.2 else none)

/-- Leading decimal digits of a word, with the remainder of the word. -/
def takeDigits : List Char → Nat → Nat × List Char
  | [], acc => (acc, [])
  | c :: cs, acc => if c.isDigit then takeDigits cs (acc * 10 + (c.toNat - 48)) else (acc, c :: cs)

/-- Numeric prefix of a word, when the word starts with a digit. -/
def numPrefix (w : List Char) : Option (Nat × List Char) :=
  match w with
  | [] => none
  | c :: cs => if c.isDigit then some (takeDigits (c :: cs) 0) else none

/-- Modelled from the spec: depth unit tokens are "m"/"meter"/"meters"
(checked as the prefix "m") and "depth" (§4.1). -/
def isUnitToken (w : List Char) : Bool :=
  matchesAt "m".toList w || matchesAt "depth".toList w

/-- Splits the normalised text into space-separated words. -/
def wordsAux : List Char → List Char → List (List Char)
  | [], acc => if acc.isEmpty then [] else [acc.reverse]
  | c :: cs, acc =>
    if c == ' ' then
      if acc.isEmpty then wordsAux cs [] else acc.reverse :: wordsAux cs []
    else wordsAux cs (c :: acc)

/-- Word list of the normalised text. -/
def wordsOf (t : List Char) : List (List Char) := wordsAux t []

/-- Modelled from the spec: left-to-right scan for the first number
immediately followed by a depth unit token ("1000m" or "1000 meters");
the first numeric+unit match wins (§4.1). -/
def scanDepthTokens : List (List Char) → Option Nat
  | [] => none
  | w :: ws =>
    match numPrefix w with
    | some (n, rest) =>
      if rest.isEmpty then
        match ws with
        | [] => none
        | u :: _ => if isUnitToken u then some n else scanDepthTokens ws
      else if isUnitToken rest then some n else scanDepthTokens ws
    | none => scanDepthTokens ws

/-- Modelled from the spec: the default depth tolerance band is ±25 units
(§4.1). -/
def DEFAULT_TOLERANCE : Int := 25

/-- Modelled from the spec: resolution of the operation slot — the
operation keyword pass wins when it matches, else AVERAGE when a variable
was found and EXPLAIN otherwise (§4.1). -/
def extractOp (t : List Char) : Operation :=
  match bestOp t with
  | some o => o
  | none =>
    match bestVar t with
    | some _ => Operation.AVERAGE
    | none => Operation.EXPLAIN

/-- Modelled from the spec: `extract(text) -> Intent`, a total function —
variable slot by earliest keyword, operation slot by its own keyword pass
defaulting to AVERAGE when a variable was found and EXPLAIN otherwise, and
a left-to-right scan for a depth target (§4.1). -/
def extract (text : String) : Intent :=
  { var := (bestVar (normalize text)).getD Variable.UNKNOWN
    operation := extractOp (normalize text)
    depth_target := (scanDepthTokens (wordsOf (normalize text))).map Int.ofNat
    depth_tolerance := DEFAULT_TOLERANCE
    raw_text := text }

/-- Modelled from the spec: a depth-indexed sample of a float profile (§3). -/
structure Sample where
  depth : Int
  temperature : Rat
  salinity : Rat
  pressure : Rat
deriving DecidableEq, Repr

/-- Modelled from the spec: one float profile — identifier, position, active
flag and depth-ordered samples (§3). -/
structure Profile where
  id : Nat
  latitude : Rat
  longitude : Rat
  active : Bool
  samples : List Sample
deriving DecidableEq, Repr

/-- The Profile Store: the in-memory list of profiles, iterated in order. -/
abbrev ProfileStore := List Profile

/-- Value of the requested variable in a sample; the sample record carries
no oxygen channel, so OXYGEN and UNKNOWN yield no value. -/
def varValue (v : Variable) (s : Sample) : Option Rat :=
  match v with
  | Variable.TEMPERATURE => some s.temperature
  | Variable.SALINITY => some s.salinity
  | Variable.PRESSURE => some s.pressure
  | Variable.OXYGEN => none
  | Variable.UNKNOWN => none

/-- Variables actually carried by the sample records. -/
def realVar (v : Variable) : Bool :=
  match v with
  | Variable.TEMPERATURE => true
  | Variable.SALINITY => true
  | Variable.PRESSURE => true
  | _ => false

/-- Modelled from the spec: variable-specific units (°C, PSU, dbar; §4.2). -/
def unitOf (v : Variable) : String :=
  match v with
  | Variable.TEMPERATURE => "°C"
  | Variable.SALINITY => "PSU"
  | Variable.PRESSURE => "dbar"
  | _ => ""

/-- Human-readable variable name used in composed sentences. -/
def varNameOf (v : Variable) : String :=
  match v with
  | Variable.TEMPERATURE => "temperature"
  | Variable.SALINITY => "salinity"
  | Variable.PRESSURE => "pressure"
  | Variable.OXYGEN => "oxygen"
  | Variable.UNKNOWN => "unknown"

/-- Human-readable operation name used in composed sentences. -/
def opNameOf (op : Operation) : String :=
  match op with
  | Operation.AVERAGE => "average"
  | Operation.MAX => "maximum"
  | Operation.MIN => "minimum"
  | Operation.PROFILE => "profile"
  | Operation.COMPARE => "comparison"
  | Operation.EXPLAIN => "explanation"

/-- Modelled from the spec: the depth filter — a sample passes when no depth
target is set, or its depth lies within the tolerance band (§4.2). -/
def depthOk (intent : Intent) (d : Int) : Bool :=
  match intent.depth_target with
  | none => true
  | some t => decide (t - intent.depth_tolerance ≤ d) && decide (d ≤ t + intent.depth_tolerance)

/-- Active profiles in store iteration order. -/
def activeProfiles (store : ProfileStore) : List Profile :=
  store.filter (fun p => p.active)

/-- Values of the requested variable from one profile's samples that pass
the depth filter, in native depth order. -/
def matchedOf (intent : Intent) (p : Profile) : List Rat :=
  p.samples.filterMap (fun s => if depthOk intent s.depth then varValue intent.var s else none)

/-- All matching values across active profiles, in store iteration order. -/
def collectValues (intent : Intent) (store : ProfileStore) : List Rat :=
  (activeProfiles store).flatMap (matchedOf intent)

/-- Does some sample of some active profile fall inside the depth band? -/
def hasInBand (intent : Intent) (store : ProfileStore) : Bool :=
  (activeProfiles store).any (fun p => p.samples.any (fun s => depthOk intent s.depth))

/-- Number of active profiles contributing at least one matching sample. -/
def countContrib (intent : Intent) (store : ProfileStore) : Nat :=
  ((activeProfiles store).filter (fun p => !(matchedOf intent p).isEmpty)).length

/-- Depth/value series of one profile for a variable, in native depth order. -/
def seriesOf (v : Variable) (p : Profile) : List (Int × Rat) :=
  p.samples.filterMap (fun s => (varValue v s).map (fun x => (s.depth, x)))

/-- Modelled from the spec: the two compared variables — the primary intent
variable paired with its natural counterpart (the canonical example being
temperature versus salinity, §4.2). -/
def compareVars (v : Variable) : Variable × Variable :=
  match v with
  | Variable.SALINITY => (Variable.SALINITY, Variable.TEMPERATURE)
  | Variable.PRESSURE => (Variable.PRESSURE, Variable.TEMPERATURE)
  | _ => (Variable.TEMPERATURE, Variable.SALINITY)

/-- Nearest-depth point of a series within the tolerance band of a target
depth, ties broken by the first-encountered point. -/
def nearestWithin (tol : Int) (d : Int) : List (Int × Rat) → Option (Int × Rat)
  | [] => none
  | p :: ps =>
    match nearestWithin tol d ps with
    | none => if |d - p.1| ≤ tol then some p else none
    | some q => if |d - p.1| ≤ tol ∧ |d - p.1| ≤ |d - q.1| then some p else some q

/-- Modelled from the spec: the COMPARE alignment — each point of the first
series is paired with the nearest-depth point of the second series within
tolerance, and points with no counterpart are dropped (inner-join
semantics, §4.2). -/
def alignSeries (tol : Int) (s1 s2 : List (Int × Rat)) :
    List ((Int × Rat) × (Int × Rat)) :=
  s1.filterMap (fun x => (nearestWithin tol x.1 s2).map (fun y => (x, y)))

/-- Modelled from the spec: the payload of an AggregationResult — a scalar,
a series, two aligned named series, or a metadata-only marker (§3). -/
inductive AggValue
  | scalar (v : Rat)
  | series (pts : List (Int × Rat))
  | twoSeries (name1 : String) (s1 : List (Int × Rat)) (name2 : String) (s2 : List (Int × Rat))
  | empty
deriving DecidableEq, Repr

/-- Modelled from the spec: the AggregationResult record (§3). -/
structure AggregationResult where
  value : AggValue
  unit : String
  varName : String
  operation : String
  n_profiles : Nat
  n_samples : Nat
deriving DecidableEq, Repr

/-- Modelled from the spec: the aggregation failure taxonomy entry
`NoMatchingDataError` (§4.2, §7). -/
inductive AggError
  | NoMatchingDataError
deriving DecidableEq, Repr

deriving instance DecidableEq for Except

/-- First maximum of a value list, computed by a left fold in which only a
strictly greater value replaces the current best (first-encountered value
wins ties). -/
def maxFold (v : Rat) (vs : List Rat) : Rat :=
  vs.foldl (fun b y => if b < y then y else b) v

/-- First minimum of a value list, by the symmetric left fold. -/
def minFold (v : Rat) (vs : List Rat) : Rat :=
  vs.foldl (fun b y => if y < b then y else b) v

/-- Rational addition written through `mkRat` (definitionally executable;
it agrees with `+` on `Rat`, see `ratAdd_eq`). -/
def ratAdd (a b : Rat) : Rat :=
  mkRat (a.num * (b.den : Int) + b.num * (a.den : Int)) (a.den * b.den)

/-- Division of a rational by a positive natural, through `mkRat`. -/
def ratDivNat (a : Rat) (n : Nat) : Rat :=
  mkRat a.num (a.den * n)

/-- Arithmetic mean of a nonempty value list. -/
def avgFold (v : Rat) (vs : List Rat) : Rat :=
  ratDivNat ((v :: vs).foldl ratAdd 0) (vs.length + 1)

/-- The aligned inner join of the COMPARE branch: the two compared
variables' series of a profile, joined by nearest-depth matching within
the intent's tolerance. -/
def compareJoin (intent : Intent) (p : Profile) :
    List ((Int × Rat) × (Int × Rat)) :=
  alignSeries intent.depth_tolerance
    (seriesOf (compareVars intent.var).1 p) (seriesOf (compareVars intent.var).2 p)

/-- Scalar reduction step of the aggregator, shared by AVERAGE, MAX and
MIN: reduce the matching values, failing when none match. -/
def scalarAgg (intent : Intent) (store : ProfileStore) (redu : Rat → List Rat → Rat) :
    Except AggError AggregationResult :=
  match collectValues intent store with
  | [] => Except.error AggError.NoMatchingDataError
  | v :: vs =>
    Except.ok
      { value := AggValue.scalar (redu v vs)
        unit := unitOf intent.var
        varName := varNameOf intent.var
        operation := opNameOf intent.operation
        n_profiles := countContrib intent store
        n_samples := vs.length + 1 }

/-- Modelled from the spec: `aggregate(intent, store)` (§4.2).  It fails
with `NoMatchingDataError` when a depth target is set but no sample of any
active profile falls within the tolerance band; AVERAGE/MAX/MIN reduce the
matching values (MAX/MIN ties broken by the first-encountered sample in
store iteration order); PROFILE returns the first active profile's full
depth-ordered series; COMPARE returns two series aligned by nearest-depth
matching within tolerance (inner join); EXPLAIN returns a metadata-only
result with `n_profiles = 0`.  Per the §3 invariant, an aggregation over
zero matching samples is an error rather than a silently-zero result. -/
def aggregate (intent : Intent) (store : ProfileStore) : Except AggError AggregationResult :=
  if intent.depth_target.isSome && !hasInBand intent store then
    Except.error AggError.NoMatchingDataError
  else
    match intent.operation with
    | Operation.EXPLAIN =>
      Except.ok
        { value := AggValue.empty
          unit := ""
          varName := varNameOf intent.var
          operation := opNameOf Operation.EXPLAIN
          n_profiles := 0
          n_samples := 0 }
    | Operation.AVERAGE => scalarAgg intent store avgFold
    | Operation.MAX => scalarAgg intent store maxFold
    | Operation.MIN => scalarAgg intent store minFold
    | Operation.PROFILE =>
      match store.find? (fun p => p.active) with
      | none => Except.error AggError.NoMatchingDataError
      | some p =>
        if (seriesOf intent.var p).isEmpty then Except.error AggError.NoMatchingDataError
        else
          Except.ok
            { value := AggValue.series (seriesOf intent.var p)
              unit := unitOf intent.var
              varName := varNameOf intent.var
              operation := opNameOf Operation.PROFILE
              n_profiles := 1
              n_samples := (seriesOf intent.var p).length }
    | Operation.COMPARE =>
      match store.find? (fun p => p.active) with
      | none => Except.error AggError.NoMatchingDataError
      | some p =>
        if (compareJoin intent p).isEmpty then Except.error AggError.NoMatchingDataError
        else
          Except.ok
            { value := AggValue.twoSeries (varNameOf (compareVars intent.var).1)
                ((compareJoin intent p).map Prod.fst)
                (varNameOf (compareVars intent.var).2)
                ((compareJoin intent p).map Prod.snd)
              unit := unitOf (compareVars intent.var).1
              varName := varNameOf (compareVars intent.var).1
              operation := opNameOf Operation.COMPARE
              n_profiles := 1
              n_samples := (compareJoin intent p).length }

/-- Well-formedness of a store: at least one active profile, and every
active profile carries at least one sample (the synthetic generator of the
spec always produces such stores). -/
def storeWF (store : ProfileStore) : Bool :=
  store.any (fun p => p.active) && store.all (fun p => !p.active || !p.samples.isEmpty)

/-- A small concrete store used to witness the theorems below. -/
def demoStore : ProfileStore :=
  [{ id := 1, latitude := 10, longitude := 20, active := true,
     samples :=
       [{ depth := 0, temperature := 20, salinity := 35, pressure := 0 },
        { depth := 500, temperature := 8, salinity := mkRat 349 10, pressure := 505 },
        { depth := 1000, temperature := 4, salinity := mkRat 347 10, pressure := 1010 }] },
   { id := 2, latitude := -5, longitude := 140, active := true,
     samples :=
       [{ depth := 0, temperature := 22, salinity := mkRat 352 10, pressure := 0 },
        { depth := 990, temperature := mkRat 9 2, salinity := mkRat 348 10, pressure := 1000 }] }]

/-- Profile identifiers strictly ascending along the store. -/
def idAscending : ProfileStore → Bool
  | [] => true
  | [_] => true
  | p :: q :: rest => decide (p.id < q.id) && idAscending (q :: rest)

/-- Sample depths strictly ascending along a profile. -/
def depthsAsc : List Sample → Bool
  | [] => true
  | [_] => true
  | s :: s2 :: rest => decide (s.depth < s2.depth) && depthsAsc (s2 :: rest)

/-- The store iteration order of the spec: profile-id ascending, sample
depths ascending within each profile (§3, §4.2). -/
def storeOrdered (store : ProfileStore) : Bool :=
  idAscending store && store.all (fun p => depthsAsc p.samples)

/-- Brute-force reference reduction, following the spec's words: the
maximum over a value list, with ties broken by the first-encountered
value (§8). -/
def bruteForceMax : List Rat → Option Rat
  | [] => none
  | x :: xs =>
    match bruteForceMax xs with
    | none => some x
    | some m => some (if x < m then m else x)

/-- Brute-force reference reduction for the minimum, first-encountered
value winning ties (§8). -/
def bruteForceMin : List Rat → Option Rat
  | [] => none
  | x :: xs =>
    match bruteForceMin xs with
    | none => some x
    | some m => some (if m < x then m else x)

/-- Two-digit zero-padded decimal rendering of a remainder below 100. -/
def pad2 (m : Nat) : String :=
  if m < 10 then "0" ++ Nat.repr m else Nat.repr m

/-- Rounding of a rational to centi-units: the floor of `v * 100 + 1/2`,
written directly on the numerator and denominator so it is definitionally
executable. -/
def centiRound (v : Rat) : Int :=
  Int.fdiv (200 * v.num + (v.den : Int)) (2 * (v.den : Int))

/-- Modelled from the spec: fixed-precision rendering of a numeric value
with exactly 2 decimal places (§4.3), by rounding to centi-units. -/
def formatFixed2 (v : Rat) : String :=
  (if centiRound v < 0 then "-" else "") ++
    Nat.repr ((centiRound v).natAbs / 100) ++ "." ++ pad2 ((centiRound v).natAbs % 100)

/-- Number of characters after the last decimal point of a string. -/
def fracDigits (s : String) : Nat :=
  ((s.data.reverse).takeWhile (fun c => c != '.')).length

/-- Modelled from the spec: the VisualizationSpec tagged variant (§3). -/
inductive VisualizationSpec
  | chart (series : List (String × List (Int × Rat)))
  | table (rows : List (List String))
  | no_viz
deriving DecidableEq, Repr

/-- Modelled from the spec: chart keywords in the raw text request an
explicit chart for scalar results (§4.3). -/
def chartRequested (raw : String) : Bool :=
  (findSub "show".toList (normalize raw)).isSome ||
  (findSub "plot".toList (normalize raw)).isSome ||
  (findSub "graph".toList (normalize raw)).isSome

/-- The composed reply: a sentence and a visualization descriptor. -/
structure Composed where
  text : String
  visualization : VisualizationSpec
deriving DecidableEq, Repr

/-- Modelled from the spec: the canned educational sentence of the EXPLAIN
path (§4.3). -/
def EXPLAIN_SENTENCE : String :=
  "ARGO floats drift with ocean currents and measure temperature, salinity and pressure as they rise through the water column."

/-- Modelled from the spec: `compose(intent, result)` (§4.3).  Scalar
operations produce one sentence naming variable, operation, value to 2
decimal places, unit and sample count; PROFILE and COMPARE produce a
summary sentence plus a chart; EXPLAIN produces the canned sentence with
no visualization; anything unexpected degrades to a generic apology. -/
def compose (intent : Intent) (r : AggregationResult) : Composed :=
  match intent.operation, r.value with
  | Operation.EXPLAIN, _ =>
    { text := EXPLAIN_SENTENCE, visualization := VisualizationSpec.no_viz }
  | _, AggValue.scalar v =>
    { text :=
        "The " ++ opNameOf intent.operation ++ " " ++ varNameOf intent.var ++
        " is " ++ formatFixed2 v ++ " " ++ r.unit ++ " from " ++
        toString r.n_samples ++ " samples."
      visualization :=
        if chartRequested intent.raw_text then
          VisualizationSpec.chart [(varNameOf intent.var, [(0, v)])]
        else VisualizationSpec.no_viz }
  | _, AggValue.series pts =>
    { text :=
        "Here is the " ++ varNameOf intent.var ++ " profile over " ++
        toString r.n_samples ++ " depth levels."
      visualization := VisualizationSpec.chart [(varNameOf intent.var, pts)] }
  | _, AggValue.twoSeries n1 s1 n2 s2 =>
    { text :=
        "Comparing " ++ n1 ++ " with " ++ n2 ++ " over " ++
        toString r.n_samples ++ " aligned depth levels."
      visualization := VisualizationSpec.chart [(n1, s1), (n2, s2)] }
  | _, AggValue.empty =>
    { text := "Sorry, I could not format that result."
      visualization := VisualizationSpec.no_viz }

/-- Modelled from the spec: the LLM augmenter's deterministic default — a
no-op that returns its input unchanged (§4.4, §9). -/
def augment (text : String) : String := text

/-- Modelled from the spec: the well-formed response object returned to the
caller in every case, failures included (§6, §7). -/
structure PipelineResponse where
  response : String
  success : Bool
  visualization : VisualizationSpec
deriving DecidableEq, Repr

/-- Modelled from the spec: the polite user-safe sentence of the
`NoMatchingDataError` path (§7). -/
def NO_DATA_MESSAGE : String :=
  "Sorry, no data was found in the requested depth range."

/-- Modelled from the spec: the full deterministic pipeline — extract,
aggregate, compose, augment — with every failure converted at the boundary
into a well-formed response object (§4.4, §7). -/
def runPipeline (q : String) (store : ProfileStore) : PipelineResponse :=
  match aggregate (extract q) store with
  | Except.error AggError.NoMatchingDataError =>
    { response := NO_DATA_MESSAGE
      success := false
      visualization := VisualizationSpec.no_viz }
  | Except.ok r =>
    { response := augment (compose (extract q) r).text
      success := true
      visualization := (compose (extract q) r).visualization }

/-- Embedding of an axios failure as observed by `apiService.js`: the
optional HTTP response (status and `data.detail`) and the axios error
code (`ECONNABORTED` for timeouts; timeouts carry no HTTP response). -/
structure AxiosFailure where
  responseStatus : Option Nat
  responseDetail : Option String
  code : Option String
deriving DecidableEq, Repr

/-- Embedded from `apiService.js` `sendQuery` (lines 57–78): the catch
block's cascade mapping a failure to the user-facing message.  The final
arm is the source's `error.response?.data?.detail || 'Failed to process
query'`, where a missing or empty (falsy) detail yields the fallback. -/
def sendQueryErrMsg (e : AxiosFailure) : String :=
  if e.responseStatus == some 500 then "Server error occurred while processing your query"
  else if e.responseStatus == some 422 then "Invalid query format"
  else if e.code == some "ECONNABORTED" then "Query timed out. Please try a simpler question."
  else
    match e.responseDetail with
    | some d => if d == "" then "Failed to process query" else d
    | none => "Failed to process query"

/-- Embedded from `apiService.js` `sendQuery`: a successful POST resolves
with the response data; any failure rejects with the mapped message. -/
def sendQuery {α : Type} (outcome : Except AxiosFailure α) : Except String α :=
  match outcome with
  | Except.ok r => Except.ok r
  | Except.error e => Except.error (sendQueryErrMsg e)

/-- Embedding of a caught JavaScript error as seen by
`formatErrorMessage`: an optional (possibly empty, hence falsy) message. -/
structure JsCaughtValue where
  message : Option String
deriving DecidableEq, Repr

/-- Embedded from `apiService.js` `formatErrorMessage` (lines 160–166):
return `error.message` when truthy, else the generic sentence. -/
def formatErrorMessage (e : JsCaughtValue) : String :=
  match e.message with
  | some m => if m == "" then "An unexpected error occurred. Please try again." else m
  | none => "An unexpected error occurred. Please try again."

/-- Embedded from `apiService.js` `isNetworkError` (lines 171–173). -/
def isNetworkError (e : AxiosFailure) : Bool :=
  !e.responseStatus.isSome || e.code == some "NETWORK_ERROR" || e.code == some "ECONNREFUSED"

/-- Embedded from `apiService.js` `retryRequest` (lines 178–201), the
attempt loop: `i` is the current attempt index and the second argument the
number of attempts still allowed.  An attempt that succeeds returns; a
non-network error is thrown at once; a network error is retried while
attempts remain, and the last error is thrown when they run out.  The
zero-allowance base case models the degenerate `maxRetries = 0` call, in
which the JavaScript loop body never runs and the undefined `lastError`
is thrown. -/
def retryFrom {α : Type} (f : Nat → Except AxiosFailure α) (i : Nat) :
    Nat → Except AxiosFailure α
  | 0 => Except.error { responseStatus := none, responseDetail := none, code := none }
  | remaining + 1 =>
    match f i with
    | Except.ok v => Except.ok v
    | Except.error e =>
      if isNetworkError e && remaining != 0 then retryFrom f (i + 1) remaining
      else Except.error e

/-- Embedded from `apiService.js` `retryRequest`: run the request with up
to `maxRetries` attempts (the source's default is 3). -/
def retryRequest {α : Type} (f : Nat → Except AxiosFailure α) (maxRetries : Nat) :
    Except AxiosFailure α :=
  retryFrom f 0 maxRetries

/-- Number of attempts `retryFrom` actually performs. -/
def attemptsFrom {α : Type} (f : Nat → Except AxiosFailure α) (i : Nat) : Nat → Nat
  | 0 => 0
  | remaining + 1 =>
    match f i with
    | Except.ok _ => 1
    | Except.error e =>
      if isNetworkError e && remaining != 0 then 1 + attemptsFrom f (i + 1) remaining
      else 1

/-- Number of attempts a `retryRequest` call performs. -/
def attemptCount {α : Type} (f : Nat → Except AxiosFailure α) (maxRetries : Nat) : Nat :=
  attemptsFrom f 0 maxRetries

/-- A request that fails with a network error on its first two attempts
and succeeds on the third, as a connection flake would. -/
def flakyRequest (i : Nat) : Except AxiosFailure Nat :=
  if i < 2 then Except.error { responseStatus := none, responseDetail := none, code := none }
  else Except.ok 7

/-- A request whose every attempt fails with a non-network HTTP error. -/
def httpFailing (_ : Nat) : Except AxiosFailure Nat :=
  Except.error { responseStatus := some 500, responseDetail := none, code := none }

/-- Embedding of the `data` prop handed to the `DataVisualization`
component: its `type` tag and its `data` payload, both possibly absent. -/
structure VizData where
  type : Option String
  payload : Option String
deriving DecidableEq, Repr

/-- What the component renders. -/
inductive Rendered
  | nullR
  | plotlyR (payload : String)
  | tableR (payload : String)
  | unsupportedR (type : Option String) (raw : VizData)
deriving DecidableEq, Repr

/-- Embedded from `DataVisualization.js` `renderPlotlyChart` (lines
10–32): null unless the type is `plotly` and a payload is present. -/
def renderPlotlyChart (d : VizData) : Rendered :=
  match d.type, d.payload with
  | some "plotly", some pl => Rendered.plotlyR pl
  | _, _ => Rendered.nullR

/-- Embedded from `DataVisualization.js` `renderTable` (lines 34–69):
null unless the type is `table` and a payload is present. -/
def renderTable (d : VizData) : Rendered :=
  match d.type, d.payload with
  | some "table", some pl => Rendered.tableR pl
  | _, _ => Rendered.nullR

/-- Embedded from `DataVisualization.js` `renderContent` (lines 71–84):
dispatch on the type tag, with an unsupported-type fallback block that
shows the raw payload. -/
def renderContent (d : VizData) : Rendered :=
  if d.type == some "plotly" then renderPlotlyChart d
  else if d.type == some "table" then renderTable d
  else Rendered.unsupportedR d.type d

/-- Embedded from `DataVisualization.js` (lines 5–9 and 110–119): a falsy
`data` prop renders nothing; otherwise, in the initial `auto` view mode,
the component renders `renderContent data`. -/
def DataVisualization (data : Option VizData) (_title : String) : Option Rendered :=
  match data with
  | none => none
  | some d => some (renderContent d)

/-- The temperature series the COMPARE witness query returns. -/
def demoSeriesT : List (Int × Rat) := [(0, 20), (500, 8), (1000, 4)]

/-- The salinity series the COMPARE witness query returns. -/
def demoSeriesS : List (Int × Rat) := [(0, 35), (500, mkRat 349 10), (1000, mkRat 347 10)]

/-- The aggregation result of the COMPARE witness query on `demoStore`. -/
def demoCompareResult : AggregationResult :=
  { value := AggValue.twoSeries "temperature" demoSeriesT "salinity" demoSeriesS
    unit := "°C"
    varName := "temperature"
    operation := "comparison"
    n_profiles := 1
    n_samples := 3 }

/-- A scalar aggregation result used to witness the composer format. -/
def demoScalarResult : AggregationResult :=
  { value := AggValue.scalar (mkRat 347 10)
    unit := "°C"
    varName := "temperature"
    operation := "average"
    n_profiles := 2
    n_samples := 5 }

theorem ratAdd_eq (a b : Rat) : ratAdd a b = a + b := by
  unfold ratAdd
  rw [Rat.add_def']

/-- Attempt counts never exceed the allowance. -/
theorem attemptsFrom_le {α : Type} (f : Nat → Except AxiosFailure α) :
    ∀ (n i : Nat), attemptsFrom f i n ≤ n := by
  intro n
  induction n with
  | zero => intro i; simp [attemptsFrom]
  | succ m ih =>
    intro i
    unfold attemptsFrom
    cases hf : f i with
    | ok v => dsimp only; omega
    | error e =>
      dsimp only
      by_cases h : (isNetworkError e && m != 0) = true
      · rw [if_pos h]
        have := ih (i + 1)
        omega
      · rw [if_neg h]
        omega

/-- A successful retry outcome comes from an actual attempt. -/
theorem retryFrom_ok {α : Type} (f : Nat → Except AxiosFailure α) :
    ∀ (n i : Nat) (v : α), retryFrom f i n = Except.ok v →
      ∃ j, i ≤ j ∧ j < i + n ∧ f j = Except.ok v := by
  intro n
  induction n with
  | zero => intro i v h; simp [retryFrom] at h
  | succ m ih =>
    intro i v h
    unfold retryFrom at h
    cases hf : f i with
    | ok w =>
      rw [hf] at h
      dsimp only at h
      exact ⟨i, le_refl i, by omega, by rw [hf]; exact h⟩
    | error e =>
      rw [hf] at h
      dsimp only at h
      by_cases hc : (isNetworkError e && m != 0) = true
      · rw [if_pos hc] at h
        obtain ⟨j, hj1, hj2, hj3⟩ := ih (i + 1) v h
        exact ⟨j, by omega, by omega, hj3⟩
      · rw [if_neg hc] at h
        cases h

/-- Claim C7 (counterexample): a transport request that fails with network
errors on its first two attempts is automatically retried twice — three
attempts in all — by `retryRequest` at its source default of 3, so the
retry is not bounded by "at most once". -/
theorem retryRequest_retries_twice_counterexample :
    retryRequest flakyRequest 3 = Except.ok 7 ∧ attemptCount flakyRequest 3 = 3 := by
  decide

/-- Claim C7 (amended): `retryRequest` performs at most `maxRetries`
attempts (hence at most `maxRetries - 1` automatic retries, two at the
source default of 3); a non-network error is thrown at once without any
retry; and a success always comes from an actual attempt of the request
function. -/
theorem retryRequest_bounds (α : Type) (f : Nat → Except AxiosFailure α) (maxRetries : Nat) :
    attemptCount f maxRetries ≤ maxRetries ∧
    (∀ e, f 0 = Except.error e → isNetworkError e = false → 1 ≤ maxRetries →
      retryRequest f maxRetries = Except.error e ∧ attemptCount f maxRetries = 1) ∧
    (∀ v, retryRequest f maxRetries = Except.ok v →
      ∃ i, i < maxRetries ∧ f i = Except.ok v) := by
  refine ⟨attemptsFrom_le f maxRetries 0, ?_, ?_⟩
  · intro e hf hnet hpos
    obtain ⟨m, rfl⟩ : ∃ m, maxRetries = m + 1 := ⟨maxRetries - 1, by omega⟩
    constructor
    · unfold retryRequest retryFrom
      rw [hf]
      dsimp only
      rw [hnet]
      simp
    · unfold attemptCount attemptsFrom
      rw [hf]
      dsimp only
      rw [hnet]
      simp
  · intro v h
    obtain ⟨j, _, hj2, hj3⟩ := retryFrom_ok f maxRetries 0 v h
    exact ⟨j, by omega, hj3⟩

theorem retryRequest_bounds_witness :
    retryRequest httpFailing 3 =
      Except.error { responseStatus := some 500, responseDetail := none, code := none } ∧
    attemptCount httpFailing 3 = 1 :=
  (retryRequest_bounds Nat httpFailing 3).2.1
    { responseStatus := some 500, responseDetail := none, code := none }
    rfl (by decide) (by decide)

/-- Claim C9: for every failed `sendQuery` call the rejection message is
determined by the failure class — HTTP 500, HTTP 422, a timeout
(`ECONNABORTED`, which shadows neither of the two status checks), and
otherwise the server-provided detail string when it is truthy (present and
nonempty) or the generic fallback when it is missing or empty — and a
failed request never resolves successfully. -/
theorem sendQuery_error_mapping :
    (∀ e : AxiosFailure, e.responseStatus = some 500 →
      sendQueryErrMsg e = "Server error occurred while processing your query") ∧
    (∀ e : AxiosFailure, e.responseStatus = some 422 →
      sendQueryErrMsg e = "Invalid query format") ∧
    (∀ e : AxiosFailure, e.responseStatus ≠ some 500 → e.responseStatus ≠ some 422 →
      e.code = some "ECONNABORTED" →
      sendQueryErrMsg e = "Query timed out. Please try a simpler question.") ∧
    (∀ (e : AxiosFailure) (d : String), e.responseStatus ≠ some 500 →
      e.responseStatus ≠ some 422 → e.code ≠ some "ECONNABORTED" →
      e.responseDetail = some d → d ≠ "" →
      sendQueryErrMsg e = d) ∧
    (∀ e : AxiosFailure, e.responseStatus ≠ some 500 → e.responseStatus ≠ some 422 →
      e.code ≠ some "ECONNABORTED" →
      (e.responseDetail = none ∨ e.responseDetail = some "") →
      sendQueryErrMsg e = "Failed to process query") ∧
    (∀ (α : Type) (e : AxiosFailure),
      sendQuery (α := α) (Except.error e) = Except.error (sendQueryErrMsg e)) := by
  refine ⟨?_, ?_, ?_, ?_, ?_, ?_⟩
  · intro e h
    simp [sendQueryErrMsg, h]
  · intro e h
    simp [sendQueryErrMsg, h]
  · intro e h1 h2 h3
    simp [sendQueryErrMsg, h1, h2, h3]
  · intro e d h1 h2 h3 h4 h5
    simp [sendQueryErrMsg, h1, h2, h3, h4, h5]
  · intro e h1 h2 h3 h4
    cases h4 with
    | inl hnone => simp [sendQueryErrMsg, h1, h2, h3, hnone]
    | inr hempty => simp [sendQueryErrMsg, h1, h2, h3, hempty]
  · intro α e
    rfl

theorem sendQuery_error_mapping_witness :
    sendQueryErrMsg { responseStatus := some 500, responseDetail := none, code := none } =
      "Server error occurred while processing your query" ∧
    sendQueryErrMsg { responseStatus := none, responseDetail := none, code := some "ECONNABORTED" } =
      "Query timed out. Please try a simpler question." ∧
    sendQueryErrMsg { responseStatus := some 404, responseDetail := some "not found", code := none } =
      "not found" ∧
    sendQueryErrMsg { responseStatus := some 404, responseDetail := some "", code := none } =
      "Failed to process query" :=
  ⟨sendQuery_error_mapping.1 _ rfl,
   sendQuery_error_mapping.2.2.1 _ (by decide) (by decide) rfl,
   sendQuery_error_mapping.2.2.2.1 _ "not found" (by decide) (by decide) (by decide) rfl
     (by decide),
   sendQuery_error_mapping.2.2.2.2.1 _ (by decide) (by decide) (by decide) (Or.inr rfl)⟩

/-- Claim C10: the `DataVisualization` renderer is total — a missing data
prop renders nothing (null), and a visualization whose type is neither
`plotly` nor `table` renders the unsupported-type fallback block showing
the raw payload rather than throwing. -/
theorem dataVisualization_total :
    (∀ title, DataVisualization none title = none) ∧
    (∀ (d : VizData) (title : String), d.type ≠ some "plotly" → d.type ≠ some "table" →
      DataVisualization (some d) title = some (Rendered.unsupportedR d.type d)) := by
  constructor
  · intro _
    rfl
  · intro d _ h1 h2
    simp [DataVisualization, renderContent, h1, h2]

theorem dataVisualization_total_witness :
    DataVisualization (some { type := some "heatmap", payload := some "xs" }) "t" =
      some (Rendered.unsupportedR (some "heatmap")
        { type := some "heatmap", payload := some "xs" }) ∧
    DataVisualization none "t" = none :=
  ⟨dataVisualization_total.2 { type := some "heatmap", payload := some "xs" } "t"
      (by decide) (by decide),
   dataVisualization_total.1 "t"⟩

/-- Claim C5: the deterministic pipeline is a pure function of its inputs —
two runs against the same query and the same store yield identical text
and visualization (the pipeline is embedded as a pure function, so no
hidden randomness exists on the deterministic path by construction). -/
theorem pipeline_deterministic (q : String) (store : ProfileStore)
    (r1 r2 : PipelineResponse)
    (h1 : r1 = runPipeline q store) (h2 : r2 = runPipeline q store) :
    r1.response = r2.response ∧ r1.visualization = r2.visualization := by
  subst h1
  subst h2
  exact ⟨rfl, rfl⟩

theorem pipeline_deterministic_witness :
    (runPipeline "average temperature" demoStore).response =
      (runPipeline "average temperature" demoStore).response ∧
    (runPipeline "average temperature" demoStore).visualization =
      (runPipeline "average temperature" demoStore).visualization :=
  pipeline_deterministic "average temperature" demoStore _ _ rfl rfl

/-- A variable keyword occurs in the text exactly when the candidate list
is nonempty. -/
theorem varCandidates_nil_iff (t : List Char) :
    varCandidates t = [] ↔ hasVarKeyword t = false := by
  unfold varCandidates hasVarKeyword
  rw [List.filterMap_eq_nil_iff, List.any_eq_false]
  constructor
  · intro h kv hkv
    have h2 : findSub kv.1 t = none := Option.map_eq_none'.mp (h kv hkv)
    simp [h2]
  · intro h kv hkv
    have h2 : findSub kv.1 t = none := Option.not_isSome_iff_eq_none.mp (h kv hkv)
    simp [h2]

/-- The variable slot is filled exactly when the text has a variable
keyword. -/
theorem bestVar_isSome_iff (t : List Char) :
    (bestVar t).isSome = hasVarKeyword t := by
  unfold bestVar
  cases hc : varCandidates t with
  | nil =>
    have := (varCandidates_nil_iff t).mp hc
    simp [this]
  | cons c cs =>
    have : hasVarKeyword t = true := by
      by_contra hfalse
      have h0 : hasVarKeyword t = false := by
        cases h : hasVarKeyword t
        · rfl
        · exact absurd h hfalse
      rw [(varCandidates_nil_iff t).mpr h0] at hc
      cases hc
    simp [this]

/-- The operation pass finds no rule exactly when no operation keyword
occurs in the text. -/
theorem bestOp_none_iff (t : List Char) :
    bestOp t = none ↔ hasOpKeyword t = false := by
  unfold bestOp hasOpKeyword
  rw [List.findSome?_eq_none_iff, List.any_eq_false]
  constructor
  · intro h kv hkv
    have := h kv hkv
    by_contra hs
    rw [if_pos (by simpa using hs)] at this
    cases this
  · intro h kv hkv
    have := h kv hkv
    rw [if_neg (by simpa using this)]

/-- Claim C1: `extract` is a total function on strings (it is a plain Lean
function into `Intent`); a text containing a recognized variable keyword
but no operation keyword extracts operation AVERAGE; and a text with no
recognized keyword at all extracts variable UNKNOWN and operation EXPLAIN,
with no error raised. -/
theorem extract_total_defaults (text : String) :
    (hasVarKeyword (normalize text) = true → hasOpKeyword (normalize text) = false →
      (extract text).operation = Operation.AVERAGE) ∧
    (hasVarKeyword (normalize text) = false → hasOpKeyword (normalize text) = false →
      (extract text).var = Variable.UNKNOWN ∧ (extract text).operation = Operation.EXPLAIN) := by
  constructor
  · intro hvar hop
    have h1 : bestOp (normalize text) = none := (bestOp_none_iff _).mpr hop
    have h2 : (bestVar (normalize text)).isSome = true := by
      rw [bestVar_isSome_iff]
      exact hvar
    obtain ⟨v, hv⟩ := Option.isSome_iff_exists.mp h2
    show extractOp (normalize text) = Operation.AVERAGE
    unfold extractOp
    rw [h1, hv]
  · intro hvar hop
    have h1 : bestOp (normalize text) = none := (bestOp_none_iff _).mpr hop
    have h2 : bestVar (normalize text) = none := by
      have h3 := bestVar_isSome_iff (normalize text)
      rw [hvar] at h3
      exact Option.not_isSome_iff_eq_none.mp (by rw [h3]; exact Bool.false_ne_true)
    constructor
    · show (bestVar (normalize text)).getD Variable.UNKNOWN = Variable.UNKNOWN
      rw [h2]
      rfl
    · show extractOp (normalize text) = Operation.EXPLAIN
      unfold extractOp
      rw [h1, h2]

theorem extract_total_defaults_witness :
    (extract "water temperature please").operation = Operation.AVERAGE ∧
    ((extract "asdkjasdj").var = Variable.UNKNOWN ∧
      (extract "asdkjasdj").operation = Operation.EXPLAIN) :=
  ⟨(extract_total_defaults "water temperature please").1 (by decide) (by decide),
   (extract_total_defaults "asdkjasdj").2 (by decide) (by decide)⟩

/-- Appending to a nonempty string keeps it nonempty. -/
theorem append_ne_empty_left (a b : String) (ha : a ≠ "") : a ++ b ≠ "" := by
  intro h
  apply ha
  have hd : a.data ++ b.data = ([] : List Char) := by
    have h2 := congrArg String.data h
    rwa [String.data_append] at h2
  exact String.ext (List.append_eq_nil.mp hd).1

/-- Every sentence produced by the composer is nonempty. -/
theorem compose_text_ne_empty (intent : Intent) (r : AggregationResult) :
    (compose intent r).text ≠ "" := by
  obtain ⟨ivar, iop, idt, itol, iraw⟩ := intent
  obtain ⟨rval, runit, rvarn, ropn, rnp, rns⟩ := r
  cases iop <;> cases rval <;> dsimp only [compose] <;>
    (repeat apply append_ne_empty_left) <;> decide

/-- Claim C6: every query whose processing fails (the NoMatchingDataError
path) still yields a well-formed response object with a nonempty user-safe
message and `success = false`, never a raw exception; `runPipeline` is a
total function into `PipelineResponse`, and the frontend
`formatErrorMessage` likewise always produces a nonempty message. -/
theorem pipeline_failure_user_safe (q : String) (store : ProfileStore) :
    (runPipeline q store).response ≠ "" ∧
    (aggregate (extract q) store = Except.error AggError.NoMatchingDataError →
      (runPipeline q store).response = NO_DATA_MESSAGE ∧
      (runPipeline q store).success = false) ∧
    (∀ e : JsCaughtValue, formatErrorMessage e ≠ "") := by
  refine ⟨?_, ?_, ?_⟩
  · unfold runPipeline
    cases hagg : aggregate (extract q) store with
    | error e =>
      cases e
      dsimp only
      decide
    | ok r =>
      dsimp only
      show augment (compose (extract q) r).text ≠ ""
      unfold augment
      exact compose_text_ne_empty _ _
  · intro h
    unfold runPipeline
    rw [h]
    exact ⟨rfl, rfl⟩
  · intro e
    unfold formatErrorMessage
    cases hm : e.message with
    | none => decide
    | some m =>
      dsimp only
      by_cases hms : (m == "") = true
      · rw [if_pos hms]
        decide
      · rw [if_neg hms]
        intro hcontra
        exact hms (by rw [hcontra]; decide)

theorem pipeline_failure_user_safe_witness :
    ((runPipeline "average temperature at 9999m" demoStore).response = NO_DATA_MESSAGE ∧
      (runPipeline "average temperature at 9999m" demoStore).success = false) ∧
    formatErrorMessage { message := none } ≠ "" :=
  ⟨(pipeline_failure_user_safe "average temperature at 9999m" demoStore).2.1 (by decide),
   (pipeline_failure_user_safe "average temperature at 9999m" demoStore).2.2
     { message := none }⟩

/-- The two-digit padding really yields two characters, none of them a
decimal point. -/
theorem pad2_two_digits :
    ∀ m : Fin 100,
      (pad2 m.val).data.length = 2 ∧ ((pad2 m.val).data.all (fun c => c != '.')) = true := by
  decide

/-- `takeWhile` walks through a block whose elements all satisfy the
predicate. -/
theorem takeWhile_append_all (p : Char → Bool) :
    ∀ (l r : List Char), (∀ c ∈ l, p c = true) →
      (l ++ r).takeWhile p = l ++ r.takeWhile p := by
  intro l
  induction l with
  | nil =>
    intro r _
    simp
  | cons c cs ih =>
    intro r h
    have hc : p c = true := h c (List.mem_cons_self c cs)
    simp [List.takeWhile_cons, hc, ih r (fun x hx => h x (List.mem_cons_of_mem c hx))]

/-- A string ending in a point followed by a clean two-character block has
exactly two characters after its last decimal point. -/
theorem fracDigits_append2 (a b : String) (hlen : b.data.length = 2)
    (hb : ∀ c ∈ b.data, (c != '.') = true) :
    fracDigits (a ++ "." ++ b) = 2 := by
  unfold fracDigits
  have hd : (a ++ "." ++ b).data = a.data ++ ('.' :: b.data) := by
    simp only [String.data_append]
    rw [List.append_assoc]
    rfl
  rw [hd, List.reverse_append, List.reverse_cons, List.append_assoc,
    takeWhile_append_all _ _ _ (fun c hc => hb c (List.mem_reverse.mp hc))]
  have hstop : List.takeWhile (fun c => c != '.') (['.'] ++ a.data.reverse) = [] := by
    simp [List.takeWhile_cons]
  rw [hstop]
  simp [hlen]

/-- Every value rendered by `formatFixed2` carries exactly two digits
after the decimal point. -/
theorem fracDigits_formatFixed2 (v : Rat) : fracDigits (formatFixed2 v) = 2 := by
  unfold formatFixed2
  apply fracDigits_append2
  · exact (pad2_two_digits ⟨(centiRound v).natAbs % 100, Nat.mod_lt _ (by decide)⟩).1
  · intro c hc
    exact List.all_eq_true.mp
      (pad2_two_digits ⟨(centiRound v).natAbs % 100, Nat.mod_lt _ (by decide)⟩).2 c hc

/-- A block is an infix of itself followed by anything. -/
theorem isInfix_head (x r : List Char) : x <:+: x ++ r :=
  ⟨[], r, by simp⟩

/-- An infix of the tail of an append is an infix of the append. -/
theorem isInfix_skip (x a rest : List Char) (h : x <:+: rest) : x <:+: a ++ rest := by
  obtain ⟨s, t, hst⟩ := h
  exact ⟨a ++ s, t, by rw [← hst]; simp [List.append_assoc]⟩

/-- Claim C8: for every scalar result (operation AVERAGE, MAX or MIN) the
composed sentence presents the numeric value formatted with exactly 2
decimal places, together with the variable name, the operation name, the
unit and the sample count. -/
theorem compose_scalar_format (intent : Intent) (r : AggregationResult) (v : Rat)
    (hop : intent.operation = Operation.AVERAGE ∨ intent.operation = Operation.MAX ∨
      intent.operation = Operation.MIN)
    (hv : r.value = AggValue.scalar v) :
    fracDigits (formatFixed2 v) = 2 ∧
    (formatFixed2 v).data <:+: (compose intent r).text.data ∧
    (varNameOf intent.var).data <:+: (compose intent r).text.data ∧
    (opNameOf intent.operation).data <:+: (compose intent r).text.data ∧
    r.unit.data <:+: (compose intent r).text.data ∧
    (toString r.n_samples).data <:+: (compose intent r).text.data := by
  obtain ⟨ivar, iop, idt, itol, iraw⟩ := intent
  obtain ⟨rval, runit, rvarn, ropn, rnp, rns⟩ := r
  simp only at hop hv
  subst hv
  rcases hop with h | h | h <;> subst h <;>
    refine ⟨fracDigits_formatFixed2 v, ?_, ?_, ?_, ?_, ?_⟩ <;>
    · dsimp only [compose]
      simp only [String.data_append, List.append_assoc]
      repeat first
        | exact isInfix_head _ _
        | apply isInfix_skip

theorem compose_scalar_format_witness :
    fracDigits (formatFixed2 (mkRat 347 10)) = 2 ∧
    (formatFixed2 (mkRat 347 10)).data <:+:
      (compose (extract "average temperature") demoScalarResult).text.data ∧
    (varNameOf (extract "average temperature").var).data <:+:
      (compose (extract "average temperature") demoScalarResult).text.data ∧
    (opNameOf (extract "average temperature").operation).data <:+:
      (compose (extract "average temperature") demoScalarResult).text.data ∧
    demoScalarResult.unit.data <:+:
      (compose (extract "average temperature") demoScalarResult).text.data ∧
    (toString demoScalarResult.n_samples).data <:+:
      (compose (extract "average temperature") demoScalarResult).text.data :=
  compose_scalar_format (extract "average temperature") demoScalarResult (mkRat 347 10)
    (Or.inl (by decide)) (by decide)

/-- The max-keeping left fold agrees with the brute-force reference
reduction folded over the remaining list. -/
theorem foldl_max_eq :
    ∀ (xs : List Rat) (b : Rat),
      xs.foldl (fun acc y => if acc < y then y else acc) b =
        (match bruteForceMax xs with
         | none => b
         | some m => if b < m then m else b) := by
  intro xs
  induction xs with
  | nil =>
    intro b
    rfl
  | cons x xs ih =>
    intro b
    rw [List.foldl_cons, ih (if b < x then x else b)]
    show _ = (match bruteForceMax (x :: xs) with
      | none => b
      | some m => if b < m then m else b)
    simp only [bruteForceMax]
    cases hm : bruteForceMax xs with
    | none => simp
    | some m =>
      dsimp only
      split_ifs <;> first | rfl | linarith

/-- The min-keeping left fold agrees with the brute-force reference
reduction folded over the remaining list. -/
theorem foldl_min_eq :
    ∀ (xs : List Rat) (b : Rat),
      xs.foldl (fun acc y => if y < acc then y else acc) b =
        (match bruteForceMin xs with
         | none => b
         | some m => if m < b then m else b) := by
  intro xs
  induction xs with
  | nil =>
    intro b
    rfl
  | cons x xs ih =>
    intro b
    rw [List.foldl_cons, ih (if x < b then x else b)]
    show _ = (match bruteForceMin (x :: xs) with
      | none => b
      | some m => if m < b then m else b)
    simp only [bruteForceMin]
    cases hm : bruteForceMin xs with
    | none => simp
    | some m =>
      dsimp only
      split_ifs <;> first | rfl | linarith

/-- The MAX aggregation of a nonempty value list is the brute-force
reference maximum. -/
theorem bruteForceMax_cons_eq (v : Rat) (vs : List Rat) :
    bruteForceMax (v :: vs) = some (maxFold v vs) := by
  unfold maxFold
  rw [foldl_max_eq vs v]
  simp only [bruteForceMax]
  cases bruteForceMax vs <;> rfl

/-- The MIN aggregation of a nonempty value list is the brute-force
reference minimum. -/
theorem bruteForceMin_cons_eq (v : Rat) (vs : List Rat) :
    bruteForceMin (v :: vs) = some (minFold v vs) := by
  unfold minFold
  rw [foldl_min_eq vs v]
  simp only [bruteForceMin]
  cases bruteForceMin vs <;> rfl

/-- The reference maximum is an element of its list. -/
theorem bruteForceMax_mem :
    ∀ (l : List Rat) (v : Rat), bruteForceMax l = some v → v ∈ l := by
  intro l
  induction l with
  | nil =>
    intro v h
    cases h
  | cons x xs ih =>
    intro v h
    simp only [bruteForceMax] at h
    cases hm : bruteForceMax xs with
    | none =>
      rw [hm] at h
      dsimp only at h
      injection h with h
      exact h ▸ List.mem_cons_self x xs
    | some m =>
      rw [hm] at h
      dsimp only at h
      injection h with h
      by_cases hxm : x < m
      · rw [if_pos hxm] at h
        exact List.mem_cons_of_mem x (h ▸ ih m hm)
      · rw [if_neg hxm] at h
        exact h ▸ List.mem_cons_self x xs

/-- The reference minimum is an element of its list. -/
theorem bruteForceMin_mem :
    ∀ (l : List Rat) (v : Rat), bruteForceMin l = some v → v ∈ l := by
  intro l
  induction l with
  | nil =>
    intro v h
    cases h
  | cons x xs ih =>
    intro v h
    simp only [bruteForceMin] at h
    cases hm : bruteForceMin xs with
    | none =>
      rw [hm] at h
      dsimp only at h
      injection h with h
      exact h ▸ List.mem_cons_self x xs
    | some m =>
      rw [hm] at h
      dsimp only at h
      injection h with h
      by_cases hxm : m < x
      · rw [if_pos hxm] at h
        exact List.mem_cons_of_mem x (h ▸ ih m hm)
      · rw [if_neg hxm] at h
        exact h ▸ List.mem_cons_self x xs

/-- The reference maximum exists exactly for nonempty lists. -/
theorem bruteForceMax_none_iff (l : List Rat) : bruteForceMax l = none ↔ l = [] := by
  cases l with
  | nil => simp [bruteForceMax]
  | cons x xs =>
    simp only [bruteForceMax]
    cases bruteForceMax xs <;> simp

/-- The reference minimum exists exactly for nonempty lists. -/
theorem bruteForceMin_none_iff (l : List Rat) : bruteForceMin l = none ↔ l = [] := by
  cases l with
  | nil => simp [bruteForceMin]
  | cons x xs =>
    simp only [bruteForceMin]
    cases bruteForceMin xs <;> simp

/-- The reference maximum bounds every element of its list. -/
theorem bruteForceMax_ub :
    ∀ (l : List Rat) (v : Rat), bruteForceMax l = some v → ∀ x ∈ l, x ≤ v := by
  intro l
  induction l with
  | nil =>
    intro v _ x hx
    cases hx
  | cons a xs ih =>
    intro v h x hx
    simp only [bruteForceMax] at h
    cases hm : bruteForceMax xs with
    | none =>
      rw [hm] at h
      dsimp only at h
      injection h with h
      cases List.mem_cons.mp hx with
      | inl hxa => subst h; subst hxa; exact le_refl x
      | inr hxs =>
        rw [bruteForceMax_none_iff] at hm
        subst hm
        cases hxs
    | some m =>
      rw [hm] at h
      dsimp only at h
      injection h with h
      have hub := ih m hm
      cases List.mem_cons.mp hx with
      | inl hxa =>
        subst hxa
        by_cases hxm : x < m
        · rw [if_pos hxm] at h
          subst h
          linarith
        · rw [if_neg hxm] at h
          subst h
          exact le_refl x
      | inr hxs =>
        have := hub x hxs
        by_cases ham : a < m
        · rw [if_pos ham] at h
          subst h
          exact this
        · rw [if_neg ham] at h
          subst h
          linarith

/-- The reference minimum bounds every element of its list from below. -/
theorem bruteForceMin_lb :
    ∀ (l : List Rat) (v : Rat), bruteForceMin l = some v → ∀ x ∈ l, v ≤ x := by
  intro l
  induction l with
  | nil =>
    intro v _ x hx
    cases hx
  | cons a xs ih =>
    intro v h x hx
    simp only [bruteForceMin] at h
    cases hm : bruteForceMin xs with
    | none =>
      rw [hm] at h
      dsimp only at h
      injection h with h
      cases List.mem_cons.mp hx with
      | inl hxa => subst h; subst hxa; exact le_refl x
      | inr hxs =>
        rw [bruteForceMin_none_iff] at hm
        subst hm
        cases hxs
    | some m =>
      rw [hm] at h
      dsimp only at h
      injection h with h
      have hlb := ih m hm
      cases List.mem_cons.mp hx with
      | inl hxa =>
        subst hxa
        by_cases hxm : m < x
        · rw [if_pos hxm] at h
          subst h
          linarith
        · rw [if_neg hxm] at h
          subst h
          exact le_refl x
      | inr hxs =>
        have := hlb x hxs
        by_cases ham : m < a
        · rw [if_pos ham] at h
          subst h
          exact this
        · rw [if_neg ham] at h
          subst h
          linarith

/-- A variable carried by the sample records always has a value. -/
theorem varValue_isSome (v : Variable) (hvar : realVar v = true) (s : Sample) :
    ∃ x, varValue v s = some x := by
  cases v with
  | TEMPERATURE => exact ⟨s.temperature, rfl⟩
  | SALINITY => exact ⟨s.salinity, rfl⟩
  | PRESSURE => exact ⟨s.pressure, rfl⟩
  | OXYGEN => simp [realVar] at hvar
  | UNKNOWN => simp [realVar] at hvar

/-- A well-formed store has an active profile with at least one sample. -/
theorem storeWF_spec (store : ProfileStore) (hwf : storeWF store = true) :
    (∃ p ∈ store, p.active = true) ∧
    ∀ p ∈ store, p.active = true → p.samples ≠ [] := by
  unfold storeWF at hwf
  rw [Bool.and_eq_true] at hwf
  constructor
  · obtain ⟨p, hp, hact⟩ := List.any_eq_true.mp hwf.1
    exact ⟨p, hp, hact⟩
  · intro p hp hact hnil
    have h2 := List.all_eq_true.mp hwf.2 p hp
    rw [hact, hnil] at h2
    cases h2

/-- When no depth target is set, every sample passes the depth filter. -/
theorem depthOk_of_no_target (intent : Intent) (hdt : intent.depth_target = none)
    (d : Int) : depthOk intent d = true := by
  unfold depthOk
  rw [hdt]

/-- Under a passing depth filter, a real variable's sample contributes to
the profile's matched values. -/
theorem mem_matchedOf (intent : Intent) (p : Profile) (s : Sample)
    (hs : s ∈ p.samples) (hok : depthOk intent s.depth = true)
    (x : Rat) (hx : varValue intent.var s = some x) :
    x ∈ matchedOf intent p := by
  unfold matchedOf
  rw [List.mem_filterMap]
  exact ⟨s, hs, by rw [if_pos hok, hx]⟩

/-- The collected values are nonempty for a well-formed store, a real
variable, and a depth filter that is either absent or in-band. -/
theorem collect_ne_nil (intent : Intent) (store : ProfileStore)
    (hwf : storeWF store = true) (hvar : realVar intent.var = true)
    (hband : intent.depth_target = none ∨ hasInBand intent store = true) :
    collectValues intent store ≠ [] := by
  have hmem : ∃ x, x ∈ collectValues intent store := by
    cases hband with
    | inl hdt =>
      obtain ⟨⟨p, hp, hact⟩, hsamp⟩ := storeWF_spec store hwf
      obtain ⟨s, hs⟩ := List.exists_mem_of_ne_nil _ (hsamp p hp hact)
      obtain ⟨x, hx⟩ := varValue_isSome intent.var hvar s
      refine ⟨x, ?_⟩
      unfold collectValues
      rw [List.mem_flatMap]
      exact ⟨p, List.mem_filter.mpr ⟨hp, hact⟩,
        mem_matchedOf intent p s hs (depthOk_of_no_target intent hdt s.depth) x hx⟩
    | inr hin =>
      unfold hasInBand at hin
      obtain ⟨p, hp, hpin⟩ := List.any_eq_true.mp hin
      obtain ⟨s, hs, hok⟩ := List.any_eq_true.mp hpin
      obtain ⟨x, hx⟩ := varValue_isSome intent.var hvar s
      refine ⟨x, ?_⟩
      unfold collectValues
      rw [List.mem_flatMap]
      exact ⟨p, hp, mem_matchedOf intent p s hs hok x hx⟩
  obtain ⟨x, hx⟩ := hmem
  exact List.ne_nil_of_mem hx

/-- Claim C3: for every MAX or MIN query over the full dataset (no depth
filter) on a well-formed, id-and-depth-ordered store, the aggregated value
equals the brute-force reference maximum/minimum over the union of all
active profiles' matching values, enumerated in store iteration order;
the value is an element of that union and bounds it, and the reference
reduction breaks ties in favour of the first-encountered value. -/
theorem aggregate_max_min_reference (intent : Intent) (store : ProfileStore)
    (hop : intent.operation = Operation.MAX ∨ intent.operation = Operation.MIN)
    (hdt : intent.depth_target = none)
    (hwf : storeWF store = true)
    (hvar : realVar intent.var = true)
    (_hord : storeOrdered store = true) :
    ∃ v,
      (aggregate intent store).toOption.map (fun r => r.value) =
        some (AggValue.scalar v) ∧
      (intent.operation = Operation.MAX →
        bruteForceMax (collectValues intent store) = some v ∧
        ∀ x ∈ collectValues intent store, x ≤ v) ∧
      (intent.operation = Operation.MIN →
        bruteForceMin (collectValues intent store) = some v ∧
        ∀ x ∈ collectValues intent store, v ≤ x) ∧
      v ∈ collectValues intent store := by
  have hfront : (intent.depth_target.isSome && !hasInBand intent store) = false := by
    rw [hdt]
    rfl
  have hnn := collect_ne_nil intent store hwf hvar (Or.inl hdt)
  unfold aggregate
  rw [hfront]
  simp only [Bool.false_eq_true, if_false]
  cases hop with
  | inl hmax =>
    rw [hmax]
    unfold scalarAgg
    cases hc : collectValues intent store with
    | nil => exact absurd hc hnn
    | cons v vs =>
      dsimp only
      refine ⟨maxFold v vs, rfl, ?_, ?_, ?_⟩
      · intro _
        have heq := bruteForceMax_cons_eq v vs
        exact ⟨heq, bruteForceMax_ub (v :: vs) (maxFold v vs) heq⟩
      · intro hmin
        cases hmin
      · exact bruteForceMax_mem (v :: vs) (maxFold v vs) (bruteForceMax_cons_eq v vs)
  | inr hmin =>
    rw [hmin]
    unfold scalarAgg
    cases hc : collectValues intent store with
    | nil => exact absurd hc hnn
    | cons v vs =>
      dsimp only
      refine ⟨minFold v vs, rfl, ?_, ?_, ?_⟩
      · intro hmax
        cases hmax
      · intro _
        have heq := bruteForceMin_cons_eq v vs
        exact ⟨heq, bruteForceMin_lb (v :: vs) (minFold v vs) heq⟩
      · exact bruteForceMin_mem (v :: vs) (minFold v vs) (bruteForceMin_cons_eq v vs)

theorem aggregate_max_min_reference_witness :
    ∃ v,
      (aggregate (extract "maximum temperature") demoStore).toOption.map
          (fun r => r.value) = some (AggValue.scalar v) ∧
      ((extract "maximum temperature").operation = Operation.MAX →
        bruteForceMax (collectValues (extract "maximum temperature") demoStore) = some v ∧
        ∀ x ∈ collectValues (extract "maximum temperature") demoStore, x ≤ v) ∧
      ((extract "maximum temperature").operation = Operation.MIN →
        bruteForceMin (collectValues (extract "maximum temperature") demoStore) = some v ∧
        ∀ x ∈ collectValues (extract "maximum temperature") demoStore, v ≤ x) ∧
      v ∈ collectValues (extract "maximum temperature") demoStore :=
  aggregate_max_min_reference (extract "maximum temperature") demoStore
    (Or.inl (by decide)) (by decide) (by decide) (by decide) (by decide)

/-- A nearest-depth match is an element of the searched series and lies
within the tolerance band. -/
theorem nearestWithin_spec (tol d : Int) :
    ∀ (l : List (Int × Rat)) (q : Int × Rat), nearestWithin tol d l = some q →
      q ∈ l ∧ |d - q.1| ≤ tol := by
  intro l
  induction l with
  | nil =>
    intro q h
    cases h
  | cons p ps ih =>
    intro q h
    unfold nearestWithin at h
    cases hrec : nearestWithin tol d ps with
    | none =>
      rw [hrec] at h
      dsimp only at h
      by_cases hc : |d - p.1| ≤ tol
      · rw [if_pos hc] at h
        injection h with h
        subst h
        exact ⟨List.mem_cons_self p ps, hc⟩
      · rw [if_neg hc] at h
        cases h
    | some q' =>
      rw [hrec] at h
      dsimp only at h
      by_cases hc : |d - p.1| ≤ tol ∧ |d - p.1| ≤ |d - q'.1|
      · rw [if_pos hc] at h
        injection h with h
        subst h
        exact ⟨List.mem_cons_self p ps, hc.1⟩
      · rw [if_neg hc] at h
        injection h with h
        subst h
        obtain ⟨hmem, hband⟩ := ih q' hrec
        exact ⟨List.mem_cons_of_mem p hmem, hband⟩

/-- Yielding no nearest match means every point is out of tolerance. -/
theorem nearestWithin_none (tol d : Int) :
    ∀ (l : List (Int × Rat)), nearestWithin tol d l = none →
      ∀ y ∈ l, ¬ |d - y.1| ≤ tol := by
  intro l
  induction l with
  | nil =>
    intro _ y hy
    cases hy
  | cons p ps ih =>
    intro h y hy
    unfold nearestWithin at h
    cases hrec : nearestWithin tol d ps with
    | none =>
      rw [hrec] at h
      dsimp only at h
      by_cases hc : |d - p.1| ≤ tol
      · rw [if_pos hc] at h
        cases h
      · cases List.mem_cons.mp hy with
        | inl hyp => subst hyp; exact hc
        | inr hyin => exact ih hrec y hyin
    | some q' =>
      rw [hrec] at h
      dsimp only at h
      by_cases hc : |d - p.1| ≤ tol ∧ |d - p.1| ≤ |d - q'.1|
      · rw [if_pos hc] at h
        cases h
      · rw [if_neg hc] at h
        cases h

/-- Some in-tolerance point guarantees a nearest match. -/
theorem nearestWithin_isSome (tol d : Int) (l : List (Int × Rat))
    (y : Int × Rat) (hy : y ∈ l) (hclose : |d - y.1| ≤ tol) :
    (nearestWithin tol d l).isSome = true := by
  cases h : nearestWithin tol d l with
  | some q => rfl
  | none => exact absurd hclose (nearestWithin_none tol d l h y hy)

/-- Every aligned pair joins a point of the first series to a point of the
second within the tolerance band. -/
theorem alignSeries_mem (tol : Int) (s1 s2 : List (Int × Rat))
    (pr : (Int × Rat) × (Int × Rat)) (h : pr ∈ alignSeries tol s1 s2) :
    pr.1 ∈ s1 ∧ pr.2 ∈ s2 ∧ |pr.1.1 - pr.2.1| ≤ tol := by
  unfold alignSeries at h
  rw [List.mem_filterMap] at h
  obtain ⟨x, hx, hmap⟩ := h
  cases hn : nearestWithin tol x.1 s2 with
  | none =>
    rw [hn] at hmap
    cases hmap
  | some y =>
    rw [hn] at hmap
    dsimp only [Option.map] at hmap
    injection hmap with hpr
    subst hpr
    obtain ⟨hy1, hy2⟩ := nearestWithin_spec tol x.1 s2 y hn
    exact ⟨hx, hy1, hy2⟩

/-- A point with no in-tolerance counterpart in the second series is
dropped from the join rather than padded. -/
theorem alignSeries_not_padded (tol : Int) (s1 s2 : List (Int × Rat))
    (x : Int × Rat) (hfar : ∀ y ∈ s2, ¬ |x.1 - y.1| ≤ tol) :
    x ∉ (alignSeries tol s1 s2).map Prod.fst := by
  intro hmem
  rw [List.mem_map] at hmem
  obtain ⟨pr, hpr, hfst⟩ := hmem
  unfold alignSeries at hpr
  rw [List.mem_filterMap] at hpr
  obtain ⟨x', hx', hmap⟩ := hpr
  cases hn : nearestWithin tol x'.1 s2 with
  | none =>
    rw [hn] at hmap
    cases hmap
  | some y =>
    rw [hn] at hmap
    dsimp only [Option.map] at hmap
    injection hmap with hpr2
    subst hpr2
    obtain ⟨hy2, hclose⟩ := nearestWithin_spec tol x'.1 s2 y hn
    apply hfar y hy2
    have hxx : x' = x := hfst
    rw [← hxx]
    exact hclose

/-- A pair of equal-indexed points of two parallel maps of a list. -/
theorem zip_map_fst_snd {β γ : Type} (j : List (β × γ)) :
    (j.map Prod.fst).zip (j.map Prod.snd) = j := by
  rw [List.zip_map']
  have h : (fun a : β × γ => (a.1, a.2)) = id := by
    funext a
    exact Prod.mk.eta
  rw [h, List.map_id]

/-- Claim C4: every COMPARE result contains only pairs of entries whose
depths match within the tolerance band (inner-join semantics): the two
returned series are equally long and pairwise within tolerance, every
returned point comes from the corresponding source series, and a point
with no in-tolerance counterpart in the other series is absent from the
result rather than padded. -/
theorem compare_inner_join (intent : Intent) (store : ProfileStore)
    (hop : intent.operation = Operation.COMPARE)
    (r : AggregationResult) (n1 n2 : String) (a b : List (Int × Rat))
    (hr : aggregate intent store = Except.ok r)
    (hv : r.value = AggValue.twoSeries n1 a n2 b) :
    a.length = b.length ∧
    (∀ pr ∈ a.zip b, |pr.1.1 - pr.2.1| ≤ intent.depth_tolerance) ∧
    (∃ p, store.find? (fun q => q.active) = some p ∧
      (∀ q ∈ a, q ∈ seriesOf (compareVars intent.var).1 p) ∧
      (∀ q ∈ b, q ∈ seriesOf (compareVars intent.var).2 p) ∧
      (∀ x ∈ seriesOf (compareVars intent.var).1 p,
        (∀ y ∈ seriesOf (compareVars intent.var).2 p,
          ¬ |x.1 - y.1| ≤ intent.depth_tolerance) → x ∉ a)) := by
  unfold aggregate at hr
  by_cases hfront : (intent.depth_target.isSome && !hasInBand intent store) = true
  · rw [if_pos hfront] at hr
    cases hr
  · rw [if_neg hfront] at hr
    rw [hop] at hr
    dsimp only at hr
    cases hfind : store.find? (fun q => q.active) with
    | none =>
      rw [hfind] at hr
      cases hr
    | some p =>
      rw [hfind] at hr
      dsimp only at hr
      by_cases hj : (compareJoin intent p).isEmpty = true
      · rw [if_pos hj] at hr
        cases hr
      · rw [if_neg hj] at hr
        injection hr with hr
        subst hr
        simp only at hv
        injection hv with he1 he2 he3 he4
        subst he2
        subst he4
        refine ⟨by rw [List.length_map, List.length_map], ?_, ?_⟩
        · intro pr hpr
          rw [zip_map_fst_snd] at hpr
          exact (alignSeries_mem intent.depth_tolerance _ _ pr hpr).2.2
        · refine ⟨p, rfl, ?_, ?_, ?_⟩
          · intro q hq
            rw [List.mem_map] at hq
            obtain ⟨pr, hpr, hq2⟩ := hq
            subst hq2
            exact (alignSeries_mem intent.depth_tolerance _ _ pr hpr).1
          · intro q hq
            rw [List.mem_map] at hq
            obtain ⟨pr, hpr, hq2⟩ := hq
            subst hq2
            exact (alignSeries_mem intent.depth_tolerance _ _ pr hpr).2.1
          · intro x _ hfar
            exact alignSeries_not_padded intent.depth_tolerance _ _ x hfar

theorem compare_inner_join_witness :
    demoSeriesT.length = demoSeriesS.length ∧
    (∀ pr ∈ demoSeriesT.zip demoSeriesS,
      |pr.1.1 - pr.2.1| ≤ (extract "compare temperature and salinity").depth_tolerance) ∧
    (∃ p, demoStore.find? (fun q => q.active) = some p ∧
      (∀ q ∈ demoSeriesT,
        q ∈ seriesOf (compareVars (extract "compare temperature and salinity").var).1 p) ∧
      (∀ q ∈ demoSeriesS,
        q ∈ seriesOf (compareVars (extract "compare temperature and salinity").var).2 p) ∧
      (∀ x ∈ seriesOf (compareVars (extract "compare temperature and salinity").var).1 p,
        (∀ y ∈ seriesOf (compareVars (extract "compare temperature and salinity").var).2 p,
          ¬ |x.1 - y.1| ≤ (extract "compare temperature and salinity").depth_tolerance) →
          x ∉ demoSeriesT)) :=
  compare_inner_join (extract "compare temperature and salinity") demoStore (by decide)
    demoCompareResult "temperature" "salinity" demoSeriesT demoSeriesS
    (by decide) (by decide)

/-- No active profile has an in-band sample exactly when every active
profile's every sample fails the depth filter. -/
theorem hasInBand_false_iff (intent : Intent) (store : ProfileStore) :
    hasInBand intent store = false ↔
      ∀ p ∈ store, p.active = true → ∀ s ∈ p.samples, depthOk intent s.depth = false := by
  unfold hasInBand
  rw [List.any_eq_false]
  constructor
  · intro h p hp hact s hs
    have h2 := h p (List.mem_filter.mpr ⟨hp, hact⟩)
    rw [Bool.not_eq_true, List.any_eq_false] at h2
    exact Bool.eq_false_iff.mpr (h2 s hs)
  · intro h p hp
    unfold activeProfiles at hp
    rw [List.mem_filter] at hp
    rw [Bool.not_eq_true, List.any_eq_false]
    intro s hs
    rw [h p hp.1 hp.2 s hs]
    exact Bool.false_ne_true

/-- Both compared variables are carried by the sample records. -/
theorem compareVars_real (v : Variable) :
    realVar (compareVars v).1 = true ∧ realVar (compareVars v).2 = true := by
  cases v <;> exact ⟨rfl, rfl⟩

/-- Every sample of a profile contributes a point, at its depth, to the
series of a real variable. -/
theorem seriesOf_mem_of_sample (v : Variable) (hv : realVar v = true)
    (p : Profile) (s : Sample) (hs : s ∈ p.samples) :
    ∃ x, (s.depth, x) ∈ seriesOf v p := by
  obtain ⟨x, hx⟩ := varValue_isSome v hv s
  refine ⟨x, ?_⟩
  unfold seriesOf
  rw [List.mem_filterMap]
  exact ⟨s, hs, by rw [hx]; rfl⟩

/-- A real variable's series of a profile with samples is nonempty. -/
theorem seriesOf_ne_nil (v : Variable) (hv : realVar v = true)
    (p : Profile) (hsamp : p.samples ≠ []) : seriesOf v p ≠ [] := by
  obtain ⟨s, hs⟩ := List.exists_mem_of_ne_nil _ hsamp
  obtain ⟨x, hx⟩ := seriesOf_mem_of_sample v hv p s hs
  exact List.ne_nil_of_mem hx

/-- With a nonnegative tolerance, the COMPARE join of a profile with
samples is nonempty: each depth matches itself at distance zero. -/
theorem compareJoin_ne_nil (intent : Intent) (p : Profile)
    (htol : 0 ≤ intent.depth_tolerance) (hsamp : p.samples ≠ []) :
    compareJoin intent p ≠ [] := by
  obtain ⟨s, hs⟩ := List.exists_mem_of_ne_nil _ hsamp
  obtain ⟨hr1, hr2⟩ := compareVars_real intent.var
  obtain ⟨x1, hx1⟩ := seriesOf_mem_of_sample _ hr1 p s hs
  obtain ⟨x2, hx2⟩ := seriesOf_mem_of_sample _ hr2 p s hs
  have hclose : |(s.depth : Int) - (s.depth, x2).1| ≤ intent.depth_tolerance := by
    simpa using htol
  have hsome := nearestWithin_isSome intent.depth_tolerance s.depth
    (seriesOf (compareVars intent.var).2 p) (s.depth, x2) hx2 hclose
  obtain ⟨y, hy⟩ := Option.isSome_iff_exists.mp hsome
  have hmem : ((s.depth, x1), y) ∈ compareJoin intent p := by
    unfold compareJoin alignSeries
    rw [List.mem_filterMap]
    exact ⟨(s.depth, x1), hx1, by rw [hy]; rfl⟩
  exact List.ne_nil_of_mem hmem

/-- A well-formed store has a first active profile, and it is active. -/
theorem find?_active_of_wf (store : ProfileStore) (hwf : storeWF store = true) :
    ∃ p, store.find? (fun q => q.active) = some p ∧ p ∈ store ∧ p.active = true := by
  obtain ⟨⟨p0, hp0, hact0⟩, _⟩ := storeWF_spec store hwf
  have hsome : (store.find? (fun q => q.active)).isSome = true := by
    rw [List.find?_isSome]
    exact ⟨p0, hp0, hact0⟩
  obtain ⟨p, hp⟩ := Option.isSome_iff_exists.mp hsome
  exact ⟨p, hp, List.mem_of_find?_eq_some hp, List.find?_some hp⟩

/-- A nonempty collection of matching values means at least one active
profile contributed. -/
theorem countContrib_pos (intent : Intent) (store : ProfileStore) (v : Rat)
    (vs : List Rat) (hc : collectValues intent store = v :: vs) :
    1 ≤ countContrib intent store := by
  have hv : v ∈ collectValues intent store := by
    rw [hc]
    exact List.mem_cons_self v vs
  unfold collectValues at hv
  rw [List.mem_flatMap] at hv
  obtain ⟨p, hp, hvp⟩ := hv
  have hne : (matchedOf intent p).isEmpty = false := by
    cases hm : matchedOf intent p with
    | nil => rw [hm] at hvp; cases hvp
    | cons a as => rfl
  have hpin : p ∈ (activeProfiles store).filter (fun q => !(matchedOf intent q).isEmpty) :=
    List.mem_filter.mpr ⟨hp, by rw [hne]; rfl⟩
  unfold countContrib
  exact List.length_pos.mpr (List.ne_nil_of_mem hpin)

/-- A list that is not empty by the boolean test has positive length. -/
theorem length_pos_of_isEmpty_false {γ : Type} (l : List γ) (h : l.isEmpty = false) :
    1 ≤ l.length := by
  cases l with
  | nil => cases h
  | cons x xs => simp

/-- A nonempty list fails the boolean emptiness test. -/
theorem isEmpty_ne_true_of_ne_nil {γ : Type} (l : List γ) (h : l ≠ []) :
    l.isEmpty ≠ true := by
  cases l with
  | nil => exact absurd rfl h
  | cons a as => simp

/-- Under the band hypotheses, the aggregator's non-error branches really
produce results: aggregate only fails through the depth-band check. -/
theorem aggregate_ne_error (intent : Intent) (store : ProfileStore)
    (htol : 0 ≤ intent.depth_tolerance) (hwf : storeWF store = true)
    (hvar3 : realVar intent.var = true ∨ intent.operation = Operation.EXPLAIN ∨
      intent.operation = Operation.COMPARE)
    (hfront : (intent.depth_target.isSome && !hasInBand intent store) = false) :
    aggregate intent store ≠ Except.error AggError.NoMatchingDataError := by
  have hband : intent.depth_target = none ∨ hasInBand intent store = true := by
    by_cases hds : intent.depth_target.isSome = true
    · right
      rw [hds] at hfront
      simpa using hfront
    · left
      exact Option.not_isSome_iff_eq_none.mp hds
  unfold aggregate
  rw [hfront]
  simp only [Bool.false_eq_true, if_false]
  cases hoper : intent.operation with
  | EXPLAIN =>
    intro h
    cases h
  | AVERAGE =>
    have hvar : realVar intent.var = true := by
      rcases hvar3 with h | h | h
      · exact h
      · rw [hoper] at h; cases h
      · rw [hoper] at h; cases h
    unfold scalarAgg
    cases hc : collectValues intent store with
    | nil => exact absurd hc (collect_ne_nil intent store hwf hvar hband)
    | cons v vs =>
      dsimp only
      intro h
      cases h
  | MAX =>
    have hvar : realVar intent.var = true := by
      rcases hvar3 with h | h | h
      · exact h
      · rw [hoper] at h; cases h
      · rw [hoper] at h; cases h
    unfold scalarAgg
    cases hc : collectValues intent store with
    | nil => exact absurd hc (collect_ne_nil intent store hwf hvar hband)
    | cons v vs =>
      dsimp only
      intro h
      cases h
  | MIN =>
    have hvar : realVar intent.var = true := by
      rcases hvar3 with h | h | h
      · exact h
      · rw [hoper] at h; cases h
      · rw [hoper] at h; cases h
    unfold scalarAgg
    cases hc : collectValues intent store with
    | nil => exact absurd hc (collect_ne_nil intent store hwf hvar hband)
    | cons v vs =>
      dsimp only
      intro h
      cases h
  | PROFILE =>
    have hvar : realVar intent.var = true := by
      rcases hvar3 with h | h | h
      · exact h
      · rw [hoper] at h; cases h
      · rw [hoper] at h; cases h
    obtain ⟨p, hfind, hpmem, hpact⟩ := find?_active_of_wf store hwf
    rw [hfind]
    dsimp only
    have hsamp := (storeWF_spec store hwf).2 p hpmem hpact
    have hne : (seriesOf intent.var p).isEmpty ≠ true :=
      isEmpty_ne_true_of_ne_nil _ (seriesOf_ne_nil intent.var hvar p hsamp)
    rw [if_neg hne]
    intro h
    cases h
  | COMPARE =>
    obtain ⟨p, hfind, hpmem, hpact⟩ := find?_active_of_wf store hwf
    rw [hfind]
    dsimp only
    have hsamp := (storeWF_spec store hwf).2 p hpmem hpact
    have hne : (compareJoin intent p).isEmpty ≠ true :=
      isEmpty_ne_true_of_ne_nil _ (compareJoin_ne_nil intent p htol hsamp)
    rw [if_neg hne]
    intro h
    cases h

/-- The invariant of the scalar branch: a successful scalar aggregation
has at least one contributing profile and one sample. -/
theorem scalarAgg_invariant (intent : Intent) (store : ProfileStore)
    (redu : Rat → List Rat → Rat) (r : AggregationResult)
    (h : scalarAgg intent store redu = Except.ok r) :
    1 ≤ r.n_profiles ∧ 1 ≤ r.n_samples := by
  unfold scalarAgg at h
  cases hc : collectValues intent store with
  | nil =>
    rw [hc] at h
    cases h
  | cons v vs =>
    rw [hc] at h
    dsimp only at h
    injection h with h
    subst h
    exact ⟨countContrib_pos intent store v vs hc, by dsimp only; omega⟩

/-- Claim C2: under a nonnegative tolerance, a well-formed store and an
intent whose variable is carried by the data (or whose operation is
EXPLAIN or COMPARE), `aggregate` fails with `NoMatchingDataError` exactly
when a depth target is set and no sample of any active profile passes the
depth filter; unconditionally, every successful result of an operation
other than EXPLAIN has `n_profiles ≥ 1` and `n_samples ≥ 1`, while
EXPLAIN — the sole exception — succeeds with `n_profiles = 0`. -/
theorem aggregate_error_iff (intent : Intent) (store : ProfileStore) :
    ((0 ≤ intent.depth_tolerance ∧ storeWF store = true ∧
        (realVar intent.var = true ∨ intent.operation = Operation.EXPLAIN ∨
          intent.operation = Operation.COMPARE)) →
      (aggregate intent store = Except.error AggError.NoMatchingDataError ↔
        (intent.depth_target.isSome = true ∧
          ∀ p ∈ store, p.active = true → ∀ s ∈ p.samples,
            depthOk intent s.depth = false))) ∧
    (∀ r, aggregate intent store = Except.ok r → intent.operation ≠ Operation.EXPLAIN →
      1 ≤ r.n_profiles ∧ 1 ≤ r.n_samples) ∧
    (∀ r, aggregate intent store = Except.ok r → intent.operation = Operation.EXPLAIN →
      r.n_profiles = 0 ∧ r.n_samples = 0) := by
  refine ⟨?_, ?_, ?_⟩
  · rintro ⟨htol, hwf, hvar3⟩
    constructor
    · intro herr
      by_cases hfront : (intent.depth_target.isSome && !hasInBand intent store) = true
      · rw [Bool.and_eq_true] at hfront
        refine ⟨hfront.1, ?_⟩
        have hband : hasInBand intent store = false := by
          have h2 := hfront.2
          simpa using h2
        exact (hasInBand_false_iff intent store).mp hband
      · have hfront2 : (intent.depth_target.isSome && !hasInBand intent store) = false := by
          cases h : (intent.depth_target.isSome && !hasInBand intent store)
          · rfl
          · exact absurd h hfront
        exact absurd herr (aggregate_ne_error intent store htol hwf hvar3 hfront2)
    · rintro ⟨hds, hall⟩
      have hband : hasInBand intent store = false :=
        (hasInBand_false_iff intent store).mpr hall
      unfold aggregate
      rw [hds, hband]
      rfl
  · intro r hr hne
    unfold aggregate at hr
    by_cases hfront : (intent.depth_target.isSome && !hasInBand intent store) = true
    · rw [if_pos hfront] at hr
      cases hr
    · rw [if_neg hfront] at hr
      cases hoper : intent.operation with
      | EXPLAIN => exact absurd hoper hne
      | AVERAGE =>
        rw [hoper] at hr
        exact scalarAgg_invariant intent store avgFold r hr
      | MAX =>
        rw [hoper] at hr
        exact scalarAgg_invariant intent store maxFold r hr
      | MIN =>
        rw [hoper] at hr
        exact scalarAgg_invariant intent store minFold r hr
      | PROFILE =>
        rw [hoper] at hr
        dsimp only at hr
        cases hfind : store.find? (fun q => q.active) with
        | none =>
          rw [hfind] at hr
          cases hr
        | some p =>
          rw [hfind] at hr
          dsimp only at hr
          by_cases hemp : (seriesOf intent.var p).isEmpty = true
          · rw [if_pos hemp] at hr
            cases hr
          · rw [if_neg hemp] at hr
            injection hr with hr
            subst hr
            refine ⟨le_refl 1, ?_⟩
            exact length_pos_of_isEmpty_false _ (Bool.eq_false_iff.mpr hemp)
      | COMPARE =>
        rw [hoper] at hr
        dsimp only at hr
        cases hfind : store.find? (fun q => q.active) with
        | none =>
          rw [hfind] at hr
          cases hr
        | some p =>
          rw [hfind] at hr
          dsimp only at hr
          by_cases hemp : (compareJoin intent p).isEmpty = true
          · rw [if_pos hemp] at hr
            cases hr
          · rw [if_neg hemp] at hr
            injection hr with hr
            subst hr
            refine ⟨le_refl 1, ?_⟩
            exact length_pos_of_isEmpty_false _ (Bool.eq_false_iff.mpr hemp)
  · intro r hr hoper
    unfold aggregate at hr
    by_cases hfront : (intent.depth_target.isSome && !hasInBand intent store) = true
    · rw [if_pos hfront] at hr
      cases hr
    · rw [if_neg hfront] at hr
      rw [hoper] at hr
      dsimp only at hr
      injection hr with hr
      subst hr
      exact ⟨rfl, rfl⟩

theorem aggregate_error_iff_witness :
    aggregate (extract "average temperature at 9999m") demoStore =
      Except.error AggError.NoMatchingDataError ∧
    (∀ r, aggregate (extract "average temperature") demoStore = Except.ok r →
      (extract "average temperature").operation ≠ Operation.EXPLAIN →
      1 ≤ r.n_profiles ∧ 1 ≤ r.n_samples) ∧
    (∀ r, aggregate (extract "asdkjasdj") demoStore = Except.ok r →
      (extract "asdkjasdj").operation = Operation.EXPLAIN →
      r.n_profiles = 0 ∧ r.n_samples = 0) :=
  ⟨((aggregate_error_iff (extract "average temperature at 9999m") demoStore).1
      ⟨by decide, by decide, Or.inl (by decide)⟩).mpr ⟨by decide, by decide⟩,
   (aggregate_error_iff (extract "average temperature") demoStore).2.1,
   (aggregate_error_iff (extract "asdkjasdj") demoStore).2.2⟩

end FloatChat
